import Mathlib

/-!
# Crypto::ECC (lib/src/crypto.cpp)

A shallow embedding of the `Crypto::ECC` class: the signature buffer, its
text serialisation (`DumpSignature` / `SetSignature`), the curve lookup
(`ToNid`) and the control flow of `Sign`, `Verify` and `GenerateKeys` around
the OpenSSL primitives, which are taken as parameters.

Conventions:
* `std::string` is a `List Char`;
* `uint8_t` values are `Nat` below 256, `int` values are `Int`;
* a pointer is an `Option` (`none` is the null pointer);
* the fixed-capacity member `uint8_t signature[N]` is a `List Nat` whose
  length is the capacity `N = sizeof(signature)` (the header that fixes `N`
  is not part of the sources, so `N` is left arbitrary).
-/

set_option autoImplicit false

namespace Crypto

/-! ## The parts of the C++ standard library that the class uses -/

/-- The position returned by `std::string::find(pat)`: the first index at
which `pat` occurs in `s`, `none` standing for `std::string::npos`. -/
def find : List Char → List Char → Option Nat
  | [], pat => if pat = [] then some 0 else none
  | c :: cs, pat =>
    if pat <+: (c :: cs) then some 0 else (find cs pat).map (· + 1)

/-- The call `s.substr(0, pos)`. -/
def substr (s : List Char) (pos : Nat) : List Char := s.take pos

/-- The call `s.erase(0, count)`. -/
def erase (s : List Char) (count : Nat) : List Char := s.drop count

/-- The C locale `isspace`: space, and the controls `\t \n \v \f \r`. -/
def isspace (c : Char) : Bool := c.toNat == 32 || (9 ≤ c.toNat && c.toNat ≤ 13)

/-- The C locale `isdigit`. -/
def isdigit (c : Char) : Bool := 48 ≤ c.toNat && c.toNat ≤ 57

/-- The value of a decimal digit character. -/
def digitVal (c : Char) : Nat := c.toNat - 48

/-- The value of a run of decimal digits, most significant first. -/
def digitsVal (ds : List Char) : Nat := ds.foldl (fun acc c => 10 * acc + digitVal c) 0

/-- The two exceptions `std::stoi` can throw. -/
inductive stoi_error where
  | invalid_argument
  | out_of_range
  deriving DecidableEq, Repr

/-- The call `std::stoi(str)` (base 10, no end position requested), after
`strtol`: leading white space is skipped, one optional sign is read, then the
longest run of decimal digits; whatever follows is ignored. No digit at all
throws `std::invalid_argument`; a value outside the range of `int` throws
`std::out_of_range`. -/
def stoi (str : List Char) : Except stoi_error Int :=
  let s := str.dropWhile isspace
  let neg : Bool := s.head? == some '-'
  let s := if s.head? == some '-' || s.head? == some '+' then s.tail else s
  let ds := s.takeWhile isdigit
  if ds = [] then .error .invalid_argument
  else
    let v : Int := if neg then - (digitsVal ds : Int) else (digitsVal ds : Int)
    if v < -2147483648 ∨ 2147483647 < v then .error .out_of_range else .ok v

/-- The character of a decimal digit. -/
def digitChar (d : Nat) : Char := Char.ofNat (48 + d)

/-- Decimal digits of a natural number, prepended to `acc`. -/
def decimal_aux : Nat → Nat → List Char → List Char
  | 0, _, acc => acc
  | fuel + 1, n, acc =>
    if n < 10 then digitChar n :: acc
    else decimal_aux fuel (n / 10) (digitChar (n % 10) :: acc)

/-- The decimal digits of a natural number (`n + 1` rounds always suffice). -/
def decimal (n : Nat) : List Char := decimal_aux (n + 1) n []

/-- The call `std::to_string(int)`: the output of `printf("%d")`. -/
def to_string (v : Int) : List Char :=
  if v < 0 then '-' :: decimal (-v).toNat else decimal v.toNat

/-- The conversion of an `int` to `uint8_t` on assignment: reduction modulo 256. -/
def to_uint8 (v : Int) : Nat := (v % 256).toNat

deriving instance DecidableEq for Except

/-! ## The OpenSSL handles and primitives -/

/-- An `EVP_PKEY` object, named by an identifier. -/
abbrev EVP_PKEY := Nat

/-- An `EC_KEY` object, named by an identifier. -/
abbrev EC_KEY := Nat

/-- An open `FILE`, named by an identifier. -/
abbrev FILE := Nat

/-- The digests returned by `EVP_sha256()` and `EVP_sha1()`. -/
inductive EVP_MD where
  | sha256
  | sha1
  deriving DecidableEq, Repr

/-- A call a method makes into the C and OpenSSL libraries, with the arguments
that matter here. A byte buffer argument is a pointer: `none` is null. -/
inductive Call where
  | cerr (text : List Char)
  | ERR_print_errors_fp
  | EVP_MD_CTX_create
  | EVP_MD_CTX_destroy
  | EVP_DigestSignInit (md : EVP_MD) (pkey : Option EVP_PKEY)
  | EVP_DigestSignUpdate (msg : Option (List Nat)) (msglen : Nat)
  | EVP_DigestSignFinal (siglen : Nat)
  | EVP_DigestVerifyInit (md : EVP_MD) (pkey : Option EVP_PKEY)
  | EVP_DigestVerifyUpdate (msg : Option (List Nat)) (msglen : Nat)
  | EVP_DigestVerifyFinal (sig : Option (List Nat)) (siglen : Nat)
  | EC_KEY_new_by_curve_name (nid : Int)
  | EC_KEY_generate_key (key : EC_KEY)
  | EC_KEY_check_key (key : EC_KEY)
  | fopen (path : List Char) (mode : List Char)
  | PEM_write_EC_PUBKEY (fp : FILE) (key : EC_KEY)
  | PEM_write_ECPrivateKey (fp : FILE) (key : EC_KEY)
  | fclose (fp : FILE)
  | EC_KEY_free (key : EC_KEY)
  | PEM_read_EC_PUBKEY (fp : FILE)
  | PEM_read_ECPrivateKey (fp : FILE)
  | EVP_PKEY_new
  | EVP_PKEY_assign_EC_KEY (pkey : Option EVP_PKEY) (key : EC_KEY)
  deriving DecidableEq, Repr

/-- Whether a call is one of the signing primitives. -/
def Call.isSign : Call → Bool
  | .EVP_DigestSignInit _ _ => true
  | .EVP_DigestSignUpdate _ _ => true
  | .EVP_DigestSignFinal _ => true
  | _ => false

/-- Whether a call is one of the verification primitives. -/
def Call.isVerify : Call → Bool
  | .EVP_DigestVerifyInit _ _ => true
  | .EVP_DigestVerifyUpdate _ _ => true
  | .EVP_DigestVerifyFinal _ _ => true
  | _ => false

/-- Whether a call generates a key or opens a file. -/
def Call.isKeygenOrOpen : Call → Bool
  | .EC_KEY_new_by_curve_name _ => true
  | .EC_KEY_generate_key _ => true
  | .fopen _ _ => true
  | _ => false

/-- The results of the library primitives, which the methods only consume.
The digest context carries the digest, the key and the message given to the
earlier steps, so the later steps receive them too. `EVP_DigestSignFinal`
gets the buffer and the value of `*siglen` on entry, and gives back its
return value, the buffer and the value of `*siglen` on exit. -/
structure OpenSSL where
  EVP_DigestSignInit : EVP_MD → Option EVP_PKEY → Int
  EVP_DigestSignUpdate : EVP_MD → Option EVP_PKEY → Option (List Nat) → Nat → Int
  EVP_DigestSignFinal : EVP_MD → Option EVP_PKEY → Option (List Nat) → Nat →
    List Nat → Nat → Int × List Nat × Nat
  EVP_DigestVerifyInit : EVP_MD → Option EVP_PKEY → Int
  EVP_DigestVerifyUpdate : EVP_MD → Option EVP_PKEY → Option (List Nat) → Nat → Int
  EVP_DigestVerifyFinal : EVP_MD → Option EVP_PKEY → Option (List Nat) → Nat →
    Option (List Nat) → Nat → Int
  EC_KEY_new_by_curve_name : Int → Option EC_KEY
  EC_KEY_generate_key : EC_KEY → Int
  EC_KEY_check_key : EC_KEY → Int
  fopen : List Char → List Char → Option FILE
  PEM_read_EC_PUBKEY : FILE → Option EC_KEY
  PEM_read_ECPrivateKey : FILE → Option EC_KEY
  EVP_PKEY_new : Option EVP_PKEY
  EVP_PKEY_assign_EC_KEY : Option EVP_PKEY → EC_KEY → Int

/-! ## The class -/

/-- The data members of `Crypto::ECC`. -/
structure ECC where
  evp_sign_key : Option EVP_PKEY
  evp_verify_key : Option EVP_PKEY
  privatekey : Option EC_KEY
  publickey : Option EC_KEY
  signature : List Nat
  signature_len : Nat
  deriving DecidableEq, Repr

namespace ECC

/-- The constructor `ECC::ECC()`, run on the uninitialised object `raw`: both
`EVP_PKEY` handles are cleared and `signature_len` is set to
`sizeof(signature)`; `privatekey`, `publickey` and the buffer contents are
left as they were. -/
def new (raw : ECC) : ECC :=
  { raw with
    evp_sign_key := none
    evp_verify_key := none
    signature_len := raw.signature.length }

/-- The `for` loop of `DumpSignature`, `fuel` iterations from index `i` on
with `ret` built so far. A read `signature[i]` past the capacity is modelled
as `0`. -/
def DumpSignature_loop (self : ECC) : Nat → Nat → List Char → List Char
  | 0, _, ret => ret
  | fuel + 1, i, ret =>
    if i < self.signature_len then
      let ret1 := if i ≠ 0 then ret ++ [':'] else ret
      let ret2 := ret1 ++ to_string (Int.ofNat (self.signature.getD i 0))
      DumpSignature_loop self fuel (i + 1) ret2
    else ret

/-- The method `ECC::DumpSignature()`: the returned string and the object after the
call. The loop runs `signature_len` times. -/
def DumpSignature (self : ECC) : List Char × ECC :=
  (DumpSignature_loop self self.signature_len 0 [] ++ [':'], self)

/-- What a run of `SetSignature` did: the object after the run, every store
`signature[array_pos] = byte` it executed, in order, as `(array_pos, byte)`,
and the exception that ended it, if one was thrown. -/
structure SetSignatureRun where
  self : ECC
  stores : List (Nat × Nat)
  thrown : Option stoi_error
  deriving DecidableEq, Repr

/-- The `while` loop of `SetSignature`. A store at an index past the capacity
is recorded in `stores` and leaves the modelled buffer as it is. When
`std::stoi` throws, the run ends at once: the stores made so far stay and
`signature_len` is not assigned. `none` means the fuel ran out. -/
def SetSignature_loop (delimiter : List Char) :
    Nat → ECC → List Char → Nat → List (Nat × Nat) → Option SetSignatureRun
  | 0, _, _, _, _ => none
  | fuel + 1, self, payload, array_pos, stores =>
    match find payload delimiter with
    | none => some ⟨{ self with signature_len := array_pos }, stores, none⟩
    | some pos =>
      let token := substr payload pos
      match stoi token with
      | .error e => some ⟨self, stores, some e⟩
      | .ok v =>
        SetSignature_loop delimiter fuel
          { self with signature := self.signature.set array_pos (to_uint8 v) }
          (erase payload (pos + delimiter.length)) (array_pos + 1)
          (stores ++ [(array_pos, to_uint8 v)])

/-- The method `ECC::SetSignature(payload)`. Every iteration erases at least the
delimiter, so `payload.length + 1` rounds suffice. -/
def SetSignature (self : ECC) (payload : List Char) : Option SetSignatureRun :=
  SetSignature_loop [':'] (payload.length + 1) self payload 0 []

/-! ## The methods built on OpenSSL -/

/-- The curve identifier `NID_secp256k1` of OpenSSL (`obj_mac.h`). -/
def NID_secp256k1 : Int := 714

/-- The curve identifier `NID_brainpoolP256r1` of OpenSSL (`obj_mac.h`). -/
def NID_brainpoolP256r1 : Int := 927

/-- The method `ECC::ToNid(curvename)`. -/
def ToNid (curvename : List Char) : Int :=
  if curvename = "secp256k1".toList then NID_secp256k1
  else if curvename = "brainpool256r1".toList then NID_brainpoolP256r1
  else -1

/-- The selection of the digest at the head of `Sign` and of `Verify`: the
`if / else if / else` over `sha_alg`, `none` standing for the `else` branch
that returns `-1`. -/
def select_md (sha_alg : List Char) : Option EVP_MD :=
  if sha_alg = "sha256".toList then some EVP_MD.sha256
  else if sha_alg = "sha1".toList then some EVP_MD.sha1
  else none

/-- The method `ECC::Sign(msg, msglen, sha_alg)`: the returned `int`, the object after
the call and the library calls made, in order. -/
def Sign (lib : OpenSSL) (self : ECC) (msg : Option (List Nat)) (msglen : Nat)
    (sha_alg : List Char) : Int × ECC × List Call :=
  if self.evp_sign_key = none ∨ self.privatekey = none then
    (-1, self, [Call.cerr "invalid sign key or private key is not loaded".toList])
  else
    match select_md sha_alg with
    | none => (-1, self, [])
    | some md =>
      let t1 := [Call.EVP_MD_CTX_create, Call.EVP_DigestSignInit md self.evp_sign_key]
      if lib.EVP_DigestSignInit md self.evp_sign_key ≠ 1 then
        (-1, self, t1 ++ [Call.ERR_print_errors_fp])
      else
        let t2 := t1 ++ [Call.EVP_DigestSignUpdate msg msglen]
        if lib.EVP_DigestSignUpdate md self.evp_sign_key msg msglen ≠ 1 then
          (-1, self, t2 ++ [Call.ERR_print_errors_fp])
        else
          let t3 := t2 ++ [Call.EVP_DigestSignFinal self.signature_len]
          let out := lib.EVP_DigestSignFinal md self.evp_sign_key msg msglen
            self.signature self.signature_len
          let self1 := { self with signature := out.2.1, signature_len := out.2.2 }
          if out.1 ≠ 1 then
            (-1, self1, t3 ++ [Call.ERR_print_errors_fp])
          else
            (0, self1, t3 ++ [Call.EVP_MD_CTX_destroy])

/-- The method `ECC::Verify(msg, msglen, signature, signature_len, sha_alg)`: the returned
`int`, the object after the call and the library calls made, in order. -/
def Verify (lib : OpenSSL) (self : ECC) (msg : Option (List Nat)) (msglen : Nat)
    (signature : Option (List Nat)) (signature_len : Nat) (sha_alg : List Char) :
    Int × ECC × List Call :=
  if msg = none ∨ signature = none then
    (-1, self, [Call.cerr "invalid msg or signature".toList])
  else
    match select_md sha_alg with
    | none => (-1, self, [])
    | some md =>
      let t1 := [Call.EVP_MD_CTX_create, Call.EVP_DigestVerifyInit md self.evp_verify_key]
      if lib.EVP_DigestVerifyInit md self.evp_verify_key ≠ 1 then
        (-1, self, t1 ++ [Call.ERR_print_errors_fp])
      else
        let t2 := t1 ++ [Call.EVP_DigestVerifyUpdate msg msglen]
        if lib.EVP_DigestVerifyUpdate md self.evp_verify_key msg msglen ≠ 1 then
          (-1, self, t2 ++ [Call.ERR_print_errors_fp])
        else
          let t3 := t2 ++ [Call.EVP_DigestVerifyFinal signature signature_len]
          let ret := lib.EVP_DigestVerifyFinal md self.evp_verify_key msg msglen
            signature signature_len
          if ret ≠ 1 then
            (-1, self, t3 ++ [Call.ERR_print_errors_fp])
          else
            (ret, self, t3 ++ [Call.EVP_MD_CTX_destroy])

/-- The method `ECC::LoadPubkey(pubkey)`: the returned `int`, the object after the call
and the library calls made, in order. -/
def LoadPubkey (lib : OpenSSL) (self : ECC) (pubkey : List Char) : Int × ECC × List Call :=
  let t1 := [Call.fopen pubkey "r".toList]
  match lib.fopen pubkey "r".toList with
  | none => (-1, self, t1)
  | some fp =>
    let t2 := t1 ++ [Call.PEM_read_EC_PUBKEY fp]
    match lib.PEM_read_EC_PUBKEY fp with
    | none => (-1, { self with publickey := none }, t2 ++ [Call.ERR_print_errors_fp])
    | some key =>
      let self1 := { self with publickey := some key, evp_verify_key := lib.EVP_PKEY_new }
      let t3 := t2 ++ [Call.EVP_PKEY_new, Call.EVP_PKEY_assign_EC_KEY lib.EVP_PKEY_new key]
      if lib.EVP_PKEY_assign_EC_KEY lib.EVP_PKEY_new key ≠ 1 then
        (-1, self1, t3 ++ [Call.ERR_print_errors_fp])
      else
        (0, self1, t3 ++ [Call.fclose fp])

/-- The method `ECC::LoadPrivkey(privkey)`: the returned `int`, the object after the
call and the library calls made, in order. The result of `EC_KEY_check_key`
is not looked at. -/
def LoadPrivkey (lib : OpenSSL) (self : ECC) (privkey : List Char) : Int × ECC × List Call :=
  let t1 := [Call.fopen privkey "r".toList]
  match lib.fopen privkey "r".toList with
  | none => (-1, self, t1)
  | some fp =>
    let t2 := t1 ++ [Call.PEM_read_ECPrivateKey fp]
    match lib.PEM_read_ECPrivateKey fp with
    | none => (-1, { self with privatekey := none }, t2 ++ [Call.ERR_print_errors_fp])
    | some key =>
      let self1 := { self with privatekey := some key, evp_sign_key := lib.EVP_PKEY_new }
      let t3 := t2 ++ [Call.EC_KEY_check_key key, Call.EVP_PKEY_new,
        Call.EVP_PKEY_assign_EC_KEY lib.EVP_PKEY_new key]
      if lib.EVP_PKEY_assign_EC_KEY lib.EVP_PKEY_new key ≠ 1 then
        (-1, self1, t3 ++ [Call.ERR_print_errors_fp])
      else
        (0, self1, t3 ++ [Call.fclose fp])

/-- The method `ECC::GenerateKeys(pubkeyfile, privkeyfile, curve_name)`: the returned `int`,
the object after the call and the library calls made, in order. -/
def GenerateKeys (lib : OpenSSL) (self : ECC) (pubkeyfile privkeyfile curve_name : List Char) :
    Int × ECC × List Call :=
  let nid := ToNid curve_name
  if nid = -1 then (-1, self, [])
  else
    let t1 := [Call.EC_KEY_new_by_curve_name nid]
    match lib.EC_KEY_new_by_curve_name nid with
    | none => (-1, self, t1 ++ [Call.ERR_print_errors_fp])
    | some keygen =>
      let t2 := t1 ++ [Call.EC_KEY_generate_key keygen]
      if lib.EC_KEY_generate_key keygen ≠ 1 then
        (-1, self, t2 ++ [Call.ERR_print_errors_fp])
      else
        let t3 := t2 ++ [Call.EC_KEY_check_key keygen]
        if lib.EC_KEY_check_key keygen ≠ 1 then
          (-1, self, t3 ++ [Call.ERR_print_errors_fp])
        else
          let t4 := t3 ++ [Call.fopen pubkeyfile "w".toList]
          match lib.fopen pubkeyfile "w".toList with
          | none => (-1, self, t4)
          | some fp =>
            let t5 := t4 ++ [Call.PEM_write_EC_PUBKEY fp keygen, Call.fclose fp,
              Call.fopen privkeyfile "w".toList]
            match lib.fopen privkeyfile "w".toList with
            | none => (-1, self, t5)
            | some fq =>
              (0, self, t5 ++ [Call.PEM_write_ECPrivateKey fq keygen, Call.fclose fq,
                Call.EC_KEY_free keygen])

/-! ## Definitions used to state the properties -/

/-- The text of a list of bytes: every byte in decimal, each followed by `:`. -/
def tokens (bs : List Nat) : List Char :=
  (bs.map (fun b => to_string (Int.ofNat b) ++ [':'])).flatten

/-- The buffer after storing `bs` at the consecutive indices `k, k + 1, ...`. -/
def storeAll : List Nat → Nat → List Nat → List Nat
  | sig, _, [] => sig
  | sig, k, b :: bs => storeAll (sig.set k b) (k + 1) bs

/-- The text the loop of `DumpSignature` appends for the bytes `bs`, the first
of them at index `i`. -/
def joined : Nat → List Nat → List Char
  | _, [] => []
  | i, b :: bs => (if i ≠ 0 then [':'] else []) ++ to_string (Int.ofNat b) ++ joined (i + 1) bs

end ECC

/-- The shortest decimal representation of `b`, in the words of the format: a
non-empty run of decimal digits (hence no sign), of value `b`, with no leading
zero (a first digit `0` only in the text `0` itself). -/
def IsShortestDecimal (t : List Char) (b : Nat) : Prop :=
  t ≠ [] ∧ (∀ c ∈ t, isdigit c = true) ∧ digitsVal t = b ∧ (t.head? = some '0' → t = ['0'])

/-! ## Concrete objects on which the statements are evaluated -/

/-- A toy library: every step succeeds, a file opens and holds a key, except
that `EVP_DigestSignFinal` refuses an output buffer announced smaller than 72
bytes (the size of a DER-encoded ECDSA signature on a 256-bit curve, as
`EVP_PKEY_sign` checks it against `EVP_PKEY_size`) and otherwise announces 70
bytes, and that `EVP_DigestVerifyFinal` accepts a signature exactly when it
has the bytes of the message. -/
def demo_lib : OpenSSL where
  EVP_DigestSignInit := fun _ _ => 1
  EVP_DigestSignUpdate := fun _ _ _ _ => 1
  EVP_DigestSignFinal := fun _ _ _ _ buf siglen => if siglen < 72 then (0, buf, siglen) else (1, buf, 70)
  EVP_DigestVerifyInit := fun _ _ => 1
  EVP_DigestVerifyUpdate := fun _ _ _ _ => 1
  EVP_DigestVerifyFinal := fun _ _ msg _ sig _ => if sig = msg then 1 else 0
  EC_KEY_new_by_curve_name := fun _ => some 5
  EC_KEY_generate_key := fun _ => 1
  EC_KEY_check_key := fun _ => 1
  fopen := fun _ _ => some 3
  PEM_read_EC_PUBKEY := fun _ => some 6
  PEM_read_ECPrivateKey := fun _ => some 7
  EVP_PKEY_new := some 8
  EVP_PKEY_assign_EC_KEY := fun _ _ => 1

/-- An object with a four-byte buffer holding the three-byte signature
`7, 0, 255`, and both keys present. -/
def demo_small : ECC :=
  { evp_sign_key := some 1, evp_verify_key := some 2, privatekey := some 3, publickey := some 4,
    signature := [7, 0, 255, 9], signature_len := 3 }

/-- An uninitialised object with a 72-byte buffer. -/
def demo_raw : ECC :=
  { evp_sign_key := some 41, evp_verify_key := some 42, privatekey := some 43,
    publickey := some 44, signature := List.replicate 72 0, signature_len := 12345 }

/-- The object just after construction. -/
def demo_new : ECC := ECC.new demo_raw

/-- The object after construction and a successful `LoadPrivkey`. -/
def demo_loaded : ECC := (ECC.LoadPrivkey demo_lib demo_new "priv.pem".toList).2.1

/-- The object after construction, a successful `LoadPrivkey` and
`SetSignature("1:")`. -/
def demo_after_set : ECC :=
  match ECC.SetSignature demo_loaded "1:".toList with
  | some run => run.self
  | none => demo_loaded

/-- The object after construction, a successful `LoadPrivkey` and a first
`Sign` of the two-byte message `104, 105`. -/
def demo_after_sign : ECC :=
  (ECC.Sign demo_lib demo_loaded (some [104, 105]) 2 "sha256".toList).2.1

/-- The toy library with a verify-init step that fails. -/
def demo_lib_init_fails : OpenSSL :=
  { demo_lib with EVP_DigestVerifyInit := fun _ _ => 0 }

/-- The toy library with a verify-update step that fails. -/
def demo_lib_update_fails : OpenSSL :=
  { demo_lib with EVP_DigestVerifyUpdate := fun _ _ _ _ => 0 }

/-- The object after construction and a successful `LoadPubkey`: it holds a
public key and no private key. -/
def demo_verifier : ECC := (ECC.LoadPubkey demo_lib demo_new "pub.pem".toList).2.1

/-! ## Facts about the standard-library model -/

theorem digitChar_toNat (d : Nat) (h : d < 10) : (digitChar d).toNat = 48 + d := by
  interval_cases d <;> rfl

theorem isdigit_digitChar (d : Nat) (h : d < 10) : isdigit (digitChar d) = true := by
  interval_cases d <;> rfl

theorem digitVal_digitChar (d : Nat) (h : d < 10) : digitVal (digitChar d) = d := by
  interval_cases d <;> rfl

theorem isdigit_ne_colon (c : Char) (h : isdigit c = true) : c ≠ ':' := by
  rintro rfl
  revert h
  decide

theorem isdigit_not_isspace (c : Char) (h : isdigit c = true) : isspace c = false := by
  simp only [isdigit, isspace, Bool.and_eq_true, decide_eq_true_eq] at h ⊢
  simp only [Bool.or_eq_false_iff, beq_eq_false_iff_ne, Bool.and_eq_false_iff,
    decide_eq_false_iff_not]
  omega

theorem decimal_aux_eq (fuel : Nat) : ∀ (n : Nat) (acc : List Char), n < fuel → 0 < n →
    decimal_aux fuel n acc = ((Nat.digits 10 n).reverse.map digitChar) ++ acc := by
  induction fuel with
  | zero => intro n acc h; omega
  | succ fuel ih =>
    intro n acc hn hpos
    unfold decimal_aux
    by_cases h10 : n < 10
    · rw [if_pos h10, Nat.digits_of_lt 10 n (by omega) h10]
      rfl
    · rw [if_neg h10, ih (n / 10) _ (by omega) (by omega)]
      conv_rhs => rw [Nat.digits_def' (by decide : 1 < 10) hpos]
      simp

theorem decimal_zero : decimal 0 = ['0'] := rfl

theorem decimal_pos (n : Nat) (h : 0 < n) :
    decimal n = (Nat.digits 10 n).reverse.map digitChar := by
  unfold decimal
  rw [decimal_aux_eq (n + 1) n [] (by omega) h, List.append_nil]

theorem digitsVal_append (xs : List Char) (c : Char) :
    digitsVal (xs ++ [c]) = 10 * digitsVal xs + digitVal c := by
  simp [digitsVal, List.foldl_append]

theorem digitsVal_digits (ds : List Nat) (h : ∀ d ∈ ds, d < 10) :
    digitsVal (ds.reverse.map digitChar) = Nat.ofDigits 10 ds := by
  induction ds with
  | nil => rfl
  | cons d ds ih =>
    have hd : d < 10 := h d (List.mem_cons_self _ _)
    have ih2 := ih (fun x hx => h x (List.mem_cons_of_mem _ hx))
    rw [List.reverse_cons, List.map_append, List.map_singleton, digitsVal_append, ih2,
      digitVal_digitChar d hd, Nat.ofDigits_cons]
    omega

theorem decimal_ne_nil (n : Nat) : decimal n ≠ [] := by
  rcases Nat.eq_zero_or_pos n with rfl | h
  · decide
  · rw [decimal_pos n h]
    intro hnil
    have h1 : Nat.digits 10 n = [] := by simpa using hnil
    exact (Nat.digits_ne_nil_iff_ne_zero.mpr (by omega)) h1

theorem decimal_isdigit (n : Nat) : ∀ c ∈ decimal n, isdigit c = true := by
  rcases Nat.eq_zero_or_pos n with rfl | h
  · decide
  · rw [decimal_pos n h]
    intro c hc
    simp only [List.mem_map, List.mem_reverse] at hc
    obtain ⟨d, hd, rfl⟩ := hc
    exact isdigit_digitChar d (Nat.digits_lt_base (by decide) hd)

theorem digitsVal_decimal (n : Nat) : digitsVal (decimal n) = n := by
  rcases Nat.eq_zero_or_pos n with rfl | h
  · rfl
  · rw [decimal_pos n h, digitsVal_digits _ (fun d hd => Nat.digits_lt_base (by decide) hd),
      Nat.ofDigits_digits]

theorem stoi_digits (tok : List Char) (hne : tok ≠ []) (hd : ∀ c ∈ tok, isdigit c = true)
    (hr : digitsVal tok ≤ 2147483647) : stoi tok = .ok (digitsVal tok : Int) := by
  obtain ⟨c, cs, rfl⟩ := List.exists_cons_of_ne_nil hne
  have hc : isdigit c = true := hd c (List.mem_cons_self _ _)
  have hsp : isspace c = false := isdigit_not_isspace c hc
  have hminus : c ≠ '-' := by rintro rfl; revert hc; decide
  have hplus : c ≠ '+' := by rintro rfl; revert hc; decide
  have htw : (c :: cs).takeWhile isdigit = c :: cs :=
    List.takeWhile_eq_self_iff.mpr (fun x hx => hd x hx)
  have hv : ¬ (((digitsVal (c :: cs) : Nat) : Int) < -2147483648 ∨
      2147483647 < ((digitsVal (c :: cs) : Nat) : Int)) := by omega
  have h1 : (c :: cs).dropWhile isspace = c :: cs := by simp [List.dropWhile_cons, hsp]
  have h2 : (some c == some '-') = false := by simp [hminus]
  have h3 : (some c == some '+') = false := by simp [hplus]
  unfold stoi
  simp only [h1, List.head?_cons, h2, h3, Bool.or_false, Bool.false_eq_true, if_false, htw]
  rw [if_neg (by simp), if_neg hv]

theorem find_cons (c : Char) (cs : List Char) :
    find (c :: cs) [':'] = if c = ':' then some 0 else (find cs [':']).map (· + 1) := by
  by_cases h : c = ':'
  · subst h; simp [find]
  · have h2 : ¬ ([':'] <+: (c :: cs)) := by
      rw [List.cons_prefix_cons]
      exact fun hh => h hh.1.symm
    rw [find, if_neg h2, if_neg h]

theorem find_token (tok rest : List Char) (h : ∀ c ∈ tok, c ≠ ':') :
    find (tok ++ ':' :: rest) [':'] = some tok.length := by
  induction tok with
  | nil => simp [find_cons]
  | cons c cs ih =>
    have hc : c ≠ ':' := h c (List.mem_cons_self _ _)
    rw [List.cons_append, find_cons, if_neg hc, ih (fun x hx => h x (List.mem_cons_of_mem _ hx))]
    simp

theorem find_lt (s : List Char) : ∀ pos, find s [':'] = some pos → pos < s.length := by
  induction s with
  | nil => intro pos h; simp [find] at h
  | cons c cs ih =>
    intro pos h
    rw [find_cons] at h
    by_cases hc : c = ':'
    · rw [if_pos hc] at h
      simp only [Option.some.injEq] at h
      subst h; simp
    · rw [if_neg hc] at h
      cases hf : find cs [':'] with
      | none => rw [hf] at h; simp at h
      | some q =>
        rw [hf] at h
        simp only [Option.map_some', Option.some.injEq] at h
        have := ih q hf
        subst h; simp; omega

theorem to_string_ofNat (b : Nat) : to_string (Int.ofNat b) = decimal b := by
  unfold to_string
  rw [if_neg (by simp)]
  simp

theorem to_string_ne_colon (b : Nat) : ∀ c ∈ to_string (Int.ofNat b), c ≠ ':' := by
  intro c hc
  rw [to_string_ofNat] at hc
  exact isdigit_ne_colon c (decimal_isdigit b c hc)

theorem stoi_to_string (b : Nat) (h : b ≤ 2147483647) :
    stoi (to_string (Int.ofNat b)) = .ok (b : Int) := by
  rw [to_string_ofNat]
  have := stoi_digits (decimal b) (decimal_ne_nil b) (decimal_isdigit b)
    (by rw [digitsVal_decimal]; exact h)
  rw [digitsVal_decimal] at this
  exact this

theorem to_uint8_ofNat (b : Nat) (h : b < 256) : to_uint8 (b : Int) = b := by
  unfold to_uint8
  omega

/-! ## Facts about the serialisation loops -/

namespace ECC

theorem tokens_cons (b : Nat) (bs : List Nat) :
    tokens (b :: bs) = to_string (Int.ofNat b) ++ ':' :: tokens bs := by
  simp [tokens]

theorem SetSignature_loop_tokens (bs : List Nat) :
    ∀ (fuel : Nat) (self : ECC) (rest : List Char) (k : Nat) (stores : List (Nat × Nat)),
      (∀ b ∈ bs, b < 256) →
      SetSignature_loop [':'] (fuel + bs.length) self (tokens bs ++ rest) k stores =
        SetSignature_loop [':'] fuel
          { self with signature := storeAll self.signature k bs } rest (k + bs.length)
          (stores ++ bs.enumFrom k) := by
  induction bs with
  | nil => intro fuel self rest k stores _; simp [tokens, storeAll]
  | cons b bs ih =>
    intro fuel self rest k stores hb
    have hb256 : b < 256 := hb b (List.mem_cons_self _ _)
    have hfind : find (tokens (b :: bs) ++ rest) [':'] = some (to_string (Int.ofNat b)).length := by
      rw [tokens_cons, List.append_assoc, List.cons_append]
      exact find_token _ _ (to_string_ne_colon b)
    have htok : substr (tokens (b :: bs) ++ rest) (to_string (Int.ofNat b)).length =
        to_string (Int.ofNat b) := by
      rw [tokens_cons, List.append_assoc]
      simp [substr]
    have hrest : erase (tokens (b :: bs) ++ rest) ((to_string (Int.ofNat b)).length + [':'].length) =
        tokens bs ++ rest := by
      rw [tokens_cons, List.append_assoc, List.cons_append]
      simp [erase]
    have hfuel : fuel + (b :: bs).length = (fuel + bs.length) + 1 := by simp; omega
    rw [hfuel, SetSignature_loop, hfind]
    simp only [htok, stoi_to_string b (by omega), hrest, to_uint8_ofNat b hb256]
    rw [ih fuel _ rest (k + 1) _ (fun x hx => hb x (List.mem_cons_of_mem _ hx))]
    simp only [storeAll, List.enumFrom_cons, List.length_cons, List.append_assoc,
      List.singleton_append]
    congr 1
    omega

theorem length_le_tokens (bs : List Nat) : bs.length ≤ (tokens bs).length := by
  induction bs with
  | nil => simp
  | cons b bs ih => rw [tokens_cons]; simp; omega

theorem SetSignature_tokens (self : ECC) (bs : List Nat) (hb : ∀ b ∈ bs, b < 256) :
    SetSignature self (tokens bs) =
      some ⟨{ self with signature := storeAll self.signature 0 bs, signature_len := bs.length },
        bs.enumFrom 0, none⟩ := by
  have hlen := length_le_tokens bs
  have hfuel : (tokens bs).length + 1 = ((tokens bs).length - bs.length + 1) + bs.length := by
    omega
  have h := SetSignature_loop_tokens bs ((tokens bs).length - bs.length + 1) self [] 0 [] hb
  rw [List.append_nil] at h
  rw [SetSignature, hfuel, h, SetSignature_loop]
  simp [find]

theorem SetSignature_loop_isSome (fuel : Nat) :
    ∀ (self : ECC) (payload : List Char) (k : Nat) (stores : List (Nat × Nat)),
      payload.length < fuel →
      (SetSignature_loop [':'] fuel self payload k stores).isSome = true := by
  induction fuel with
  | zero => intro _ payload _ _ h; omega
  | succ fuel ih =>
    intro self payload k stores h
    rw [SetSignature_loop]
    cases hf : find payload [':'] with
    | none => rfl
    | some pos =>
      have hpos := find_lt payload pos hf
      cases hs : stoi (substr payload pos) with
      | error e => simp [hs]
      | ok v =>
        simp only [hs]
        apply ih
        simp [erase]
        omega

theorem SetSignature_total (self : ECC) (payload : List Char) :
    ∃ run, SetSignature self payload = some run :=
  Option.isSome_iff_exists.mp (SetSignature_loop_isSome _ self payload 0 [] (Nat.lt_succ_self _))

theorem set_getElem_same (l : List Nat) : ∀ (k : Nat) (h : k < l.length), l.set k l[k] = l := by
  induction l with
  | nil => intro k h; simp at h
  | cons a l ih =>
    intro k h
    cases k with
    | zero => rfl
    | succ k => simp only [List.set_cons_succ, List.getElem_cons_succ]; rw [ih k]

theorem storeAll_self (bs : List Nat) :
    ∀ (sig : List Nat) (k : Nat), bs <+: sig.drop k → storeAll sig k bs = sig := by
  induction bs with
  | nil => intro sig k _; rfl
  | cons b bs ih =>
    intro sig k h
    have hk : k < sig.length := by
      have := h.length_le
      simp at this
      omega
    rw [List.drop_eq_getElem_cons hk, List.cons_prefix_cons] at h
    have hset : sig.set k b = sig := by
      rw [h.1]
      exact set_getElem_same sig k hk
    rw [storeAll, hset]
    exact ih sig (k + 1) h.2

theorem DumpSignature_loop_eq (self : ECC) (hcap : self.signature_len ≤ self.signature.length)
    (fuel : Nat) : ∀ (i : Nat) (ret : List Char), i + fuel = self.signature_len →
      DumpSignature_loop self fuel i ret =
        ret ++ joined i ((self.signature.take self.signature_len).drop i) := by
  induction fuel with
  | zero =>
    intro i ret h
    have : (self.signature.take self.signature_len).drop i = [] := by
      apply List.drop_eq_nil_of_le
      simp
      omega
    simp [DumpSignature_loop, this, joined]
  | succ fuel ih =>
    intro i ret h
    have hi : i < self.signature_len := by omega
    have hi2 : i < (self.signature.take self.signature_len).length := by
      simp
      omega
    have hget : self.signature.getD i 0 = (self.signature.take self.signature_len)[i] := by
      rw [List.getElem_take]
      simp [List.getD_eq_getElem?_getD, List.getElem?_eq_getElem (show i < self.signature.length by omega)]
    rw [DumpSignature_loop, if_pos hi, ih (i + 1) _ (by omega), List.drop_eq_getElem_cons hi2,
      joined, hget]
    by_cases h0 : i = 0 <;> simp [h0]

theorem joined_succ (i : Nat) (bs : List Nat) :
    joined (i + 1) bs = (bs.map (fun b => ':' :: to_string (Int.ofNat b))).flatten := by
  induction bs generalizing i with
  | nil => rfl
  | cons b bs ih => simp [joined, ih]

theorem intercalate_cons (b : Nat) (bs : List Nat) :
    List.intercalate [':'] ((b :: bs).map (fun x => to_string (Int.ofNat x))) =
      to_string (Int.ofNat b) ++ (bs.map (fun x => ':' :: to_string (Int.ofNat x))).flatten := by
  induction bs generalizing b with
  | nil => simp [List.intercalate, List.intersperse]
  | cons c cs ih =>
    have := ih c
    simp only [List.intercalate, List.map_cons, List.intersperse, List.flatten_cons] at this ⊢
    rw [this]
    simp

theorem joined_zero (bs : List Nat) :
    joined 0 bs = List.intercalate [':'] (bs.map (fun b => to_string (Int.ofNat b))) := by
  cases bs with
  | nil => rfl
  | cons b bs => rw [intercalate_cons, joined, joined_succ]; simp

theorem flatten_colon_tokens (bs : List Nat) :
    (bs.map (fun x => ':' :: to_string (Int.ofNat x))).flatten ++ [':'] = ':' :: tokens bs := by
  induction bs with
  | nil => rfl
  | cons c cs ih =>
    rw [tokens_cons, List.map_cons, List.flatten_cons, List.append_assoc, ih]
    simp

theorem joined_zero_tokens (b : Nat) (bs : List Nat) :
    joined 0 (b :: bs) ++ [':'] = tokens (b :: bs) := by
  rw [joined, joined_succ, tokens_cons]
  simp only [ne_eq, not_true_eq_false, if_false, List.nil_append, List.append_assoc]
  rw [flatten_colon_tokens]

theorem SetSignature_loop_stores (fuel : Nat) :
    ∀ (self : ECC) (payload : List Char) (k : Nat) (stores : List (Nat × Nat))
      (run : SetSignatureRun),
      SetSignature_loop [':'] fuel self payload k stores = some run →
      ∃ more, run.stores = stores ++ more := by
  induction fuel with
  | zero => intro _ _ _ _ run h; simp [SetSignature_loop] at h
  | succ fuel ih =>
    intro self payload k stores run h
    rw [SetSignature_loop] at h
    cases hf : find payload [':'] with
    | none =>
      rw [hf] at h
      simp only [Option.some.injEq] at h
      exact ⟨[], by rw [← h]; simp⟩
    | some pos =>
      rw [hf] at h
      cases hs : stoi (substr payload pos) with
      | error e =>
        simp only [hs, Option.some.injEq] at h
        exact ⟨[], by rw [← h]; simp⟩
      | ok v =>
        simp only [hs] at h
        obtain ⟨more, hm⟩ := ih _ _ _ _ run h
        exact ⟨(k, to_uint8 v) :: more, by rw [hm]; simp⟩

theorem storeAll_length (bs : List Nat) :
    ∀ (sig : List Nat) (k : Nat), (storeAll sig k bs).length = sig.length := by
  induction bs with
  | nil => intro sig k; rfl
  | cons b bs ih => intro sig k; rw [storeAll, ih, List.length_set]

theorem SetSignature_prefix_token (self : ECC) (pre : List Nat) (tok rest : List Char)
    (hpre : ∀ b ∈ pre, b < 256) (htok : ∀ c ∈ tok, c ≠ ':') :
    ∃ fuel, rest.length < fuel ∧
      SetSignature self (tokens pre ++ tok ++ ':' :: rest) =
        match stoi tok with
        | .error e =>
          some ⟨{ self with signature := storeAll self.signature 0 pre }, pre.enumFrom 0, some e⟩
        | .ok v =>
          SetSignature_loop [':'] fuel
            { self with signature := (storeAll self.signature 0 pre).set pre.length (to_uint8 v) }
            rest (pre.length + 1) (pre.enumFrom 0 ++ [(pre.length, to_uint8 v)]) := by
  have hlen := length_le_tokens pre
  refine ⟨(tokens pre).length - pre.length + tok.length + 1 + rest.length, by omega, ?_⟩
  have hfuel : (tokens pre ++ tok ++ ':' :: rest).length + 1 =
      (((tokens pre).length - pre.length + tok.length + 1 + rest.length) + 1) + pre.length := by
    simp only [List.length_append, List.length_cons]
    omega
  have h := SetSignature_loop_tokens pre
    (((tokens pre).length - pre.length + tok.length + 1 + rest.length) + 1) self
    (tok ++ ':' :: rest) 0 [] hpre
  rw [SetSignature, hfuel, List.append_assoc, h, SetSignature_loop, find_token tok rest htok]
  have hsub : substr (tok ++ ':' :: rest) tok.length = tok := by simp [substr]
  have hera : erase (tok ++ ':' :: rest) (tok.length + [':'].length) = rest := by simp [erase]
  simp only [hsub, hera, Nat.zero_add, List.nil_append]

theorem take_len_ne_nil (self : ECC) (hlen : 1 ≤ self.signature_len)
    (hcap : self.signature_len ≤ self.signature.length) :
    self.signature.take self.signature_len ≠ [] := by
  intro h
  have h1 := congrArg List.length h
  rw [List.length_take_of_le hcap] at h1
  simp at h1
  omega

theorem DumpSignature_eq (self : ECC) (hcap : self.signature_len ≤ self.signature.length) :
    DumpSignature self =
      (joined 0 (self.signature.take self.signature_len) ++ [':'], self) := by
  rw [DumpSignature, DumpSignature_loop_eq self hcap self.signature_len 0 [] (by omega)]
  simp

end ECC

theorem digitChar_eq_zero (d : Nat) (h : d < 10) (h0 : digitChar d = '0') : d = 0 := by
  have := digitVal_digitChar d h
  rw [h0] at this
  exact this.symm

theorem decimal_shortest (b : Nat) : IsShortestDecimal (decimal b) b := by
  refine ⟨decimal_ne_nil b, decimal_isdigit b, digitsVal_decimal b, ?_⟩
  rcases Nat.eq_zero_or_pos b with rfl | h
  · intro _; rfl
  · intro hh
    exfalso
    rw [decimal_pos b h] at hh
    have hne : Nat.digits 10 b ≠ [] := Nat.digits_ne_nil_iff_ne_zero.mpr (by omega)
    have hlast := Nat.getLast_digit_ne_zero 10 (show b ≠ 0 by omega)
    have hmem : (Nat.digits 10 b).getLast hne ∈ Nat.digits 10 b := List.getLast_mem hne
    have hlt : (Nat.digits 10 b).getLast hne < 10 := Nat.digits_lt_base (by decide) hmem
    rw [List.head?_map, List.head?_reverse, List.getLast?_eq_getLast _ hne] at hh
    simp only [Option.map_some', Option.some.injEq] at hh
    exact hlast (digitChar_eq_zero _ hlt hh)

/-! ## Serialisation: `DumpSignature` and `SetSignature` -/

namespace ECC

/-- C1: when the held signature has length `n` with `1 ≤ n ≤ capacity` and the
buffer holds bytes, `SetSignature(DumpSignature())` ends without an exception
and leaves the object as it was: the length is `n` again and the buffer is
unchanged. What it stores is, for each `i < n`, the byte already at index
`i`; it stores nothing at an index `≥ n`. -/
theorem SetSignature_DumpSignature_roundtrip (self : ECC)
    (hbytes : ∀ b ∈ self.signature, b < 256)
    (hlen : 1 ≤ self.signature_len) (hcap : self.signature_len ≤ self.signature.length) :
    ∃ run, SetSignature (DumpSignature self).2 (DumpSignature self).1 = some run ∧
      run.thrown = none ∧
      run.self.signature_len = self.signature_len ∧
      run.self.signature = self.signature ∧
      run.self = self ∧
      run.stores = (self.signature.take self.signature_len).enumFrom 0 ∧
      ∀ p ∈ run.stores, p.1 < self.signature_len ∧ self.signature[p.1]? = some p.2 := by
  have hne := take_len_ne_nil self hlen hcap
  obtain ⟨b, bs, hbs⟩ := List.exists_cons_of_ne_nil hne
  have hb : ∀ x ∈ self.signature.take self.signature_len, x < 256 :=
    fun x hx => hbytes x (List.mem_of_mem_take hx)
  have hstore : storeAll self.signature 0 (self.signature.take self.signature_len) =
      self.signature :=
    storeAll_self _ _ 0 (by rw [List.drop_zero]; exact List.take_prefix _ _)
  have hl : (self.signature.take self.signature_len).length = self.signature_len :=
    List.length_take_of_le hcap
  rw [DumpSignature_eq self hcap]
  simp only
  rw [hbs, joined_zero_tokens, ← hbs, SetSignature_tokens self _ hb, hstore, hl]
  refine ⟨_, rfl, rfl, rfl, rfl, rfl, rfl, ?_⟩
  intro p hp
  obtain ⟨i, v⟩ := p
  have hm := (List.mk_mem_enumFrom_iff_le_and_getElem?_sub.mp hp).2
  rw [Nat.sub_zero] at hm
  have hi : i < self.signature_len := by
    obtain ⟨h, _⟩ := List.getElem?_eq_some.mp hm
    rw [hl] at h
    exact h
  rw [List.getElem?_take_of_lt hi] at hm
  exact ⟨hi, hm⟩

/-- Witness of C1 on a four-byte buffer that holds the signature `7, 0, 255`. -/
theorem SetSignature_DumpSignature_roundtrip_witness :
    ∃ run, SetSignature (DumpSignature demo_small).2 (DumpSignature demo_small).1 = some run ∧
      run.thrown = none ∧
      run.self.signature_len = demo_small.signature_len ∧
      run.self.signature = demo_small.signature ∧
      run.self = demo_small ∧
      run.stores = (demo_small.signature.take demo_small.signature_len).enumFrom 0 ∧
      ∀ p ∈ run.stores, p.1 < demo_small.signature_len ∧ demo_small.signature[p.1]? = some p.2 :=
  SetSignature_DumpSignature_roundtrip demo_small (by decide) (by decide) (by decide)

/-- C2: for a held signature of length `n ≤ capacity`, `DumpSignature` returns
the texts `to_string b` of the first `n` bytes joined by `:` and followed by
one more `:`; for a byte `b` that text is the shortest decimal representation
of `b`, of value at most 255; the result is the text `:` exactly when
`n = 0`; and the object is left as it was. -/
theorem DumpSignature_format (self : ECC) (hbytes : ∀ b ∈ self.signature, b < 256)
    (hcap : self.signature_len ≤ self.signature.length) :
    (DumpSignature self).1 =
        List.intercalate [':']
          ((self.signature.take self.signature_len).map (fun b => to_string (Int.ofNat b)))
          ++ [':'] ∧
      (∀ b ∈ self.signature.take self.signature_len,
        IsShortestDecimal (to_string (Int.ofNat b)) b ∧
          digitsVal (to_string (Int.ofNat b)) ≤ 255) ∧
      ((DumpSignature self).1 = [':'] ↔ self.signature_len = 0) ∧
      (DumpSignature self).2 = self := by
  rw [DumpSignature_eq self hcap]
  refine ⟨by rw [joined_zero], ?_, ?_, rfl⟩
  · intro b hb
    have h256 := hbytes b (List.mem_of_mem_take hb)
    rw [to_string_ofNat]
    refine ⟨decimal_shortest b, ?_⟩
    rw [digitsVal_decimal]
    omega
  · constructor
    · intro h
      by_contra hn
      have hne := take_len_ne_nil self (by omega) hcap
      obtain ⟨b, bs, hbs⟩ := List.exists_cons_of_ne_nil hne
      simp only at h
      rw [hbs, joined_zero_tokens, tokens_cons] at h
      have hlen := congrArg List.length h
      have hpos : 0 < (to_string (Int.ofNat b)).length := by
        rw [to_string_ofNat]
        exact List.length_pos.mpr (decimal_ne_nil b)
      rw [List.length_append, List.length_cons, List.length_singleton] at hlen
      omega
    · intro h
      simp [h, joined]

/-- Witness of C2 on a four-byte buffer that holds the signature `7, 0, 255`. -/
theorem DumpSignature_format_witness :
    (DumpSignature demo_small).1 = "7:0:255:".toList ∧
      (DumpSignature demo_small).1 =
        List.intercalate [':']
          ((demo_small.signature.take demo_small.signature_len).map
            (fun b => to_string (Int.ofNat b))) ++ [':'] ∧
      ((DumpSignature demo_small).1 = [':'] ↔ demo_small.signature_len = 0) :=
  ⟨by decide, (DumpSignature_format demo_small (by decide) (by decide)).1,
    (DumpSignature_format demo_small (by decide) (by decide)).2.2.1⟩

/-- C4, as stated, fails: the tokens `256`, `-1` and `12ab` raise no error;
the bytes `0`, `255` and `12` are stored for them. -/
theorem SetSignature_accepts_malformed_tokens :
    SetSignature demo_small "256:".toList =
        some ⟨{ demo_small with signature := [0, 0, 255, 9], signature_len := 1 },
          [(0, 0)], none⟩ ∧
      SetSignature demo_small "-1:".toList =
        some ⟨{ demo_small with signature := [255, 0, 255, 9], signature_len := 1 },
          [(0, 255)], none⟩ ∧
      SetSignature demo_small "12ab:".toList =
        some ⟨{ demo_small with signature := [12, 0, 255, 9], signature_len := 1 },
          [(0, 12)], none⟩ := by
  decide

/-- C4, amended: after any well-formed tokens `pre`, a `:`-terminated token
`tok` makes `SetSignature` throw exactly when `std::stoi` rejects it, with the
exception of `std::stoi`, no byte stored for that token and `signature_len`
left as it was; when `std::stoi` accepts it with value `v`, the byte
`v mod 256` is stored at the next index. -/
theorem SetSignature_token_follows_stoi (self : ECC) (pre : List Nat) (tok rest : List Char)
    (hpre : ∀ b ∈ pre, b < 256) (htok : ∀ c ∈ tok, c ≠ ':') :
    (∀ e, stoi tok = .error e →
      SetSignature self (tokens pre ++ tok ++ ':' :: rest) =
        some ⟨{ self with signature := storeAll self.signature 0 pre }, pre.enumFrom 0,
          some e⟩) ∧
    (∀ v, stoi tok = .ok v →
      ∃ run more, SetSignature self (tokens pre ++ tok ++ ':' :: rest) = some run ∧
        run.stores = pre.enumFrom 0 ++ (pre.length, to_uint8 v) :: more) := by
  obtain ⟨fuel, hfuel, h⟩ := SetSignature_prefix_token self pre tok rest hpre htok
  constructor
  · intro e he
    rw [h, he]
  · intro v hv
    rw [h, hv]
    simp only
    obtain ⟨run, hrun⟩ := Option.isSome_iff_exists.mp
      (SetSignature_loop_isSome fuel
        { self with signature := (storeAll self.signature 0 pre).set pre.length (to_uint8 v) }
        rest (pre.length + 1) (pre.enumFrom 0 ++ [(pre.length, to_uint8 v)]) hfuel)
    obtain ⟨more, hmore⟩ := SetSignature_loop_stores fuel _ _ _ _ run hrun
    exact ⟨run, more, hrun, by rw [hmore]; simp⟩

/-- Witness of the amended C4: after the token `7`, an empty token throws
`std::invalid_argument`, and the token `300` has the byte `44` stored. -/
theorem SetSignature_token_follows_stoi_witness :
    stoi [] = .error .invalid_argument ∧
      SetSignature demo_small (tokens [7] ++ [] ++ ':' :: "9:".toList) =
        some ⟨{ demo_small with signature := storeAll demo_small.signature 0 [7] },
          [(0, 7)], some .invalid_argument⟩ ∧
      stoi "300".toList = .ok 300 ∧
      ∃ run more, SetSignature demo_small (tokens [7] ++ "300".toList ++ ':' :: []) = some run ∧
        run.stores = [(0, 7)] ++ (1, 44) :: more :=
  ⟨by decide,
    (SetSignature_token_follows_stoi demo_small [7] [] "9:".toList (by decide) (by decide)).1
      .invalid_argument (by decide),
    by decide,
    (SetSignature_token_follows_stoi demo_small [7] "300".toList [] (by decide) (by decide)).2
      300 (by decide)⟩

/-- C9 fails on the code: for a buffer of any capacity, the payload of
`capacity + 1` tokens `0:` makes `SetSignature` store at the index `capacity`,
one past the buffer, and record the length `capacity + 1`; on a four-byte
buffer the payload `0:0:0:0:0:` stores at the indices 0 to 4 and records the
length 5. -/
theorem SetSignature_stores_past_capacity :
    (∀ self : ECC, ∃ run,
      SetSignature self (tokens (List.replicate (self.signature.length + 1) 0)) = some run ∧
        run.thrown = none ∧
        (self.signature.length, 0) ∈ run.stores ∧
        run.self.signature.length = self.signature.length ∧
        run.self.signature_len = self.signature.length + 1) ∧
      tokens (List.replicate (demo_small.signature.length + 1) 0) = "0:0:0:0:0:".toList ∧
      SetSignature demo_small "0:0:0:0:0:".toList =
        some ⟨{ demo_small with signature := [0, 0, 0, 0], signature_len := 5 },
          [(0, 0), (1, 0), (2, 0), (3, 0), (4, 0)], none⟩ := by
  refine ⟨?_, by decide, by decide⟩
  intro self
  have hb : ∀ b ∈ List.replicate (self.signature.length + 1) 0, b < 256 := by
    intro b hb
    rw [List.eq_of_mem_replicate hb]
    decide
  rw [SetSignature_tokens self _ hb]
  refine ⟨_, rfl, rfl, ?_, ?_, ?_⟩
  · apply List.mk_mem_enumFrom_iff_le_and_getElem?_sub.mpr
    refine ⟨Nat.zero_le _, ?_⟩
    rw [Nat.sub_zero, List.getElem?_replicate, if_pos (Nat.lt_succ_self _)]
  · exact storeAll_length _ _ _
  · simp

/-! ## `Sign`, `Verify`, `ToNid` and `GenerateKeys` -/

theorem select_md_none (sha_alg : List Char) (h256 : sha_alg ≠ "sha256".toList)
    (h1 : sha_alg ≠ "sha1".toList) : select_md sha_alg = none := by
  rw [select_md, if_neg h256, if_neg h1]

theorem select_md_some (sha_alg : List Char)
    (h : sha_alg = "sha256".toList ∨ sha_alg = "sha1".toList) :
    ∃ md, select_md sha_alg = some md := by
  rcases h with h | h
  · exact ⟨EVP_MD.sha256, by rw [select_md, if_pos h]⟩
  · subst h
    exact ⟨EVP_MD.sha1, by decide⟩

/-- C3, as stated, fails: with the verify-init and verify-update steps
succeeding and `EVP_DigestVerifyFinal` reporting a mismatch (result 0),
`Verify` returns `-1`, the very value it returns for an unsupported digest. -/
theorem Verify_mismatch_returns_error_value :
    demo_lib.EVP_DigestVerifyFinal EVP_MD.sha256 demo_small.evp_verify_key (some [1, 2]) 2
        (some [9]) 1 = 0 ∧
      (Verify demo_lib demo_small (some [1, 2]) 2 (some [9]) 1 "sha256".toList).1 = -1 ∧
      (Verify demo_lib demo_small (some [1, 2]) 2 (some [9]) 1 "md5".toList).1 = -1 ∧
      (Verify demo_lib demo_small (some [1, 2]) 2 (some [9]) 1 "sha256".toList).1 =
        (Verify demo_lib demo_small (some [1, 2]) 2 (some [9]) 1 "md5".toList).1 := by
  decide

/-- C3, amended: for a non-null message and signature and a supported digest,
`Verify` returns `1` exactly when the verify-init step, the verify-update
step and `EVP_DigestVerifyFinal` all return `1`, and `-1` in every other
case: when the init step fails, when the update step fails, and, both having
succeeded, for every result of `EVP_DigestVerifyFinal` other than `1`, the
mismatch result `0` among them. That `-1` is also what it returns for every
unsupported digest name. -/
theorem Verify_one_iff_final_passes (lib : OpenSSL) (self : ECC) (msg signature : Option (List Nat))
    (msglen signature_len : Nat) (sha_alg : List Char) (md : EVP_MD)
    (hmsg : msg ≠ none) (hsig : signature ≠ none) (hmd : select_md sha_alg = some md) :
    ((Verify lib self msg msglen signature signature_len sha_alg).1 = 1 ↔
        lib.EVP_DigestVerifyInit md self.evp_verify_key = 1 ∧
        lib.EVP_DigestVerifyUpdate md self.evp_verify_key msg msglen = 1 ∧
        lib.EVP_DigestVerifyFinal md self.evp_verify_key msg msglen signature signature_len = 1) ∧
      (¬ (lib.EVP_DigestVerifyInit md self.evp_verify_key = 1 ∧
          lib.EVP_DigestVerifyUpdate md self.evp_verify_key msg msglen = 1 ∧
          lib.EVP_DigestVerifyFinal md self.evp_verify_key msg msglen signature signature_len = 1) →
        (Verify lib self msg msglen signature signature_len sha_alg).1 = -1) ∧
      (lib.EVP_DigestVerifyInit md self.evp_verify_key ≠ 1 →
        (Verify lib self msg msglen signature signature_len sha_alg).1 = -1) ∧
      (lib.EVP_DigestVerifyInit md self.evp_verify_key = 1 →
        lib.EVP_DigestVerifyUpdate md self.evp_verify_key msg msglen ≠ 1 →
        (Verify lib self msg msglen signature signature_len sha_alg).1 = -1) ∧
      (lib.EVP_DigestVerifyInit md self.evp_verify_key = 1 →
        lib.EVP_DigestVerifyUpdate md self.evp_verify_key msg msglen = 1 →
        ((Verify lib self msg msglen signature signature_len sha_alg).1 = 1 ↔
          lib.EVP_DigestVerifyFinal md self.evp_verify_key msg msglen signature signature_len
            = 1) ∧
        (lib.EVP_DigestVerifyFinal md self.evp_verify_key msg msglen signature signature_len ≠ 1 →
          (Verify lib self msg msglen signature signature_len sha_alg).1 = -1) ∧
        (lib.EVP_DigestVerifyFinal md self.evp_verify_key msg msglen signature signature_len = 0 →
          (Verify lib self msg msglen signature signature_len sha_alg).1 = -1)) ∧
      (∀ other : List Char, other ≠ "sha256".toList → other ≠ "sha1".toList →
        (Verify lib self msg msglen signature signature_len other).1 = -1) := by
  have hnull : ¬ (msg = none ∨ signature = none) := fun h => h.elim hmsg hsig
  have hbad : ∀ {P : Prop}, ((-1 : Int) = 1) → P := fun h => absurd h (by decide)
  have hI : lib.EVP_DigestVerifyInit md self.evp_verify_key ≠ 1 →
      (Verify lib self msg msglen signature signature_len sha_alg).1 = -1 := by
    intro h
    simp [Verify, hnull, hmd, h]
  have hU : lib.EVP_DigestVerifyInit md self.evp_verify_key = 1 →
      lib.EVP_DigestVerifyUpdate md self.evp_verify_key msg msglen ≠ 1 →
      (Verify lib self msg msglen signature signature_len sha_alg).1 = -1 := by
    intro h1 h2
    simp [Verify, hnull, hmd, h1, h2]
  have hF : lib.EVP_DigestVerifyInit md self.evp_verify_key = 1 →
      lib.EVP_DigestVerifyUpdate md self.evp_verify_key msg msglen = 1 →
      lib.EVP_DigestVerifyFinal md self.evp_verify_key msg msglen signature signature_len ≠ 1 →
      (Verify lib self msg msglen signature signature_len sha_alg).1 = -1 := by
    intro h1 h2 h3
    simp [Verify, hnull, hmd, h1, h2, h3]
  have hOk : lib.EVP_DigestVerifyInit md self.evp_verify_key = 1 →
      lib.EVP_DigestVerifyUpdate md self.evp_verify_key msg msglen = 1 →
      lib.EVP_DigestVerifyFinal md self.evp_verify_key msg msglen signature signature_len = 1 →
      (Verify lib self msg msglen signature signature_len sha_alg).1 = 1 := by
    intro h1 h2 h3
    simp [Verify, hnull, hmd, h1, h2, h3]
  have hAll : ¬ (lib.EVP_DigestVerifyInit md self.evp_verify_key = 1 ∧
      lib.EVP_DigestVerifyUpdate md self.evp_verify_key msg msglen = 1 ∧
      lib.EVP_DigestVerifyFinal md self.evp_verify_key msg msglen signature signature_len = 1) →
      (Verify lib self msg msglen signature signature_len sha_alg).1 = -1 := by
    intro h
    by_cases h1 : lib.EVP_DigestVerifyInit md self.evp_verify_key = 1
    · by_cases h2 : lib.EVP_DigestVerifyUpdate md self.evp_verify_key msg msglen = 1
      · exact hF h1 h2 (fun h3 => h ⟨h1, h2, h3⟩)
      · exact hU h1 h2
    · exact hI h1
  refine ⟨⟨fun hv => ?_, fun h => hOk h.1 h.2.1 h.2.2⟩, hAll, hI, hU, ?_, ?_⟩
  · by_contra hn
    rw [hAll hn] at hv
    exact hbad hv
  · intro h1 h2
    refine ⟨⟨fun hv => ?_, hOk h1 h2⟩, hF h1 h2, fun h0 => hF h1 h2 (by rw [h0]; decide)⟩
    by_contra hn
    rw [hF h1 h2 hn] at hv
    exact hbad hv
  · intro other h256 h1
    rw [Verify, if_neg hnull, select_md_none other h256 h1]

/-- Witness of the amended C3: in the toy library a signature with the bytes
of the message passes and `Verify` returns `1`; with a verify-init step that
fails, and with a verify-update step that fails, `Verify` returns `-1`. -/
theorem Verify_one_iff_final_passes_witness :
    (Verify demo_lib demo_small (some [1, 2]) 2 (some [1, 2]) 2 "sha1".toList).1 = 1 ∧
      demo_lib_init_fails.EVP_DigestVerifyInit EVP_MD.sha1 demo_small.evp_verify_key = 0 ∧
      (Verify demo_lib_init_fails demo_small (some [1, 2]) 2 (some [1, 2]) 2
        "sha1".toList).1 = -1 ∧
      demo_lib_update_fails.EVP_DigestVerifyUpdate EVP_MD.sha1 demo_small.evp_verify_key
        (some [1, 2]) 2 = 0 ∧
      (Verify demo_lib_update_fails demo_small (some [1, 2]) 2 (some [1, 2]) 2
        "sha1".toList).1 = -1 :=
  ⟨(Verify_one_iff_final_passes demo_lib demo_small (some [1, 2]) (some [1, 2]) 2 2
      "sha1".toList EVP_MD.sha1 (by decide) (by decide) (by decide)).1.mpr (by decide),
    by decide,
    (Verify_one_iff_final_passes demo_lib_init_fails demo_small (some [1, 2]) (some [1, 2]) 2 2
      "sha1".toList EVP_MD.sha1 (by decide) (by decide) (by decide)).2.2.1 (by decide),
    by decide,
    (Verify_one_iff_final_passes demo_lib_update_fails demo_small (some [1, 2]) (some [1, 2])
      2 2 "sha1".toList EVP_MD.sha1 (by decide) (by decide) (by decide)).2.2.2.1 (by decide)
      (by decide)⟩

/-- C5: on an object whose signing-key handle is empty, as it is just after
construction, `Sign` returns `-1` for every message and every digest name; it
writes one line to `std::cerr` and makes no other call, so no signing
primitive runs, and the object, with its buffer and length, is left as it
was. -/
theorem Sign_without_key_fails (lib : OpenSSL) (self : ECC) (msg : Option (List Nat))
    (msglen : Nat) (sha_alg : List Char) (hkey : self.evp_sign_key = none) :
    (Sign lib self msg msglen sha_alg).1 = -1 ∧
      (Sign lib self msg msglen sha_alg).2.1 = self ∧
      (Sign lib self msg msglen sha_alg).2.1.signature = self.signature ∧
      (Sign lib self msg msglen sha_alg).2.1.signature_len = self.signature_len ∧
      (Sign lib self msg msglen sha_alg).2.2 =
        [Call.cerr "invalid sign key or private key is not loaded".toList] ∧
      ∀ c ∈ (Sign lib self msg msglen sha_alg).2.2, c.isSign = false := by
  have h : Sign lib self msg msglen sha_alg =
      (-1, self, [Call.cerr "invalid sign key or private key is not loaded".toList]) := by
    rw [Sign, if_pos (Or.inl hkey)]
  rw [h]
  refine ⟨rfl, rfl, rfl, rfl, rfl, ?_⟩
  intro c hc
  rw [List.mem_singleton.mp hc]
  rfl

/-- Witness of C5 on the object just after construction, whose signing-key
handle the constructor cleared. -/
theorem Sign_without_key_fails_witness :
    demo_new.evp_sign_key = none ∧
      (Sign demo_lib demo_new (some [104, 105]) 2 "sha256".toList).1 = -1 ∧
      (Sign demo_lib demo_new (some [104, 105]) 2 "sha256".toList).2.1 = demo_new :=
  ⟨by decide,
    (Sign_without_key_fails demo_lib demo_new (some [104, 105]) 2 "sha256".toList
      (by decide)).1,
    (Sign_without_key_fails demo_lib demo_new (some [104, 105]) 2 "sha256".toList
      (by decide)).2.1⟩

theorem Sign_reaches_init (lib : OpenSSL) (self : ECC) (msg : Option (List Nat)) (msglen : Nat)
    (sha_alg : List Char) (md : EVP_MD)
    (hsign : self.evp_sign_key ≠ none) (hpriv : self.privatekey ≠ none)
    (hmd : select_md sha_alg = some md) :
    ∃ rest, (Sign lib self msg msglen sha_alg).2.2 =
      Call.EVP_MD_CTX_create :: Call.EVP_DigestSignInit md self.evp_sign_key :: rest := by
  have hk : ¬ (self.evp_sign_key = none ∨ self.privatekey = none) := fun h => h.elim hsign hpriv
  rw [Sign, if_neg hk, hmd]
  simp only
  split
  · exact ⟨_, rfl⟩
  · split
    · exact ⟨_, rfl⟩
    · split <;> exact ⟨_, rfl⟩

theorem Verify_reaches_init (lib : OpenSSL) (self : ECC) (msg signature : Option (List Nat))
    (msglen signature_len : Nat) (sha_alg : List Char) (md : EVP_MD)
    (hmsg : msg ≠ none) (hsig : signature ≠ none) (hmd : select_md sha_alg = some md) :
    ∃ rest, (Verify lib self msg msglen signature signature_len sha_alg).2.2 =
      Call.EVP_MD_CTX_create :: Call.EVP_DigestVerifyInit md self.evp_verify_key :: rest := by
  have hnull : ¬ (msg = none ∨ signature = none) := fun h => h.elim hmsg hsig
  rw [Verify, if_neg hnull, hmd]
  simp only
  split
  · exact ⟨_, rfl⟩
  · split
    · exact ⟨_, rfl⟩
    · split <;> exact ⟨_, rfl⟩

/-- C6: for a digest name other than `sha256` and `sha1`, `Sign` and `Verify`
return `-1`, leave the object as it was and call no signing, respectively
verification, primitive, whatever the object and the arguments; `Sign` on an
object with a loaded private key, and `Verify` with a non-null message and
signature, make no library call at all. For the names `sha256` and `sha1`,
`Sign` with a loaded private key and `Verify` with a non-null message and
signature go past the selection and call the init step with that digest. -/
theorem digest_selector_closed (lib : OpenSSL) (self : ECC) (msg signature : Option (List Nat))
    (msglen signature_len : Nat) (sha_alg : List Char) :
    (sha_alg ≠ "sha256".toList → sha_alg ≠ "sha1".toList →
      ((Sign lib self msg msglen sha_alg).1 = -1 ∧
        (Sign lib self msg msglen sha_alg).2.1 = self ∧
        ∀ c ∈ (Sign lib self msg msglen sha_alg).2.2, c.isSign = false) ∧
      (self.evp_sign_key ≠ none → self.privatekey ≠ none →
        Sign lib self msg msglen sha_alg = (-1, self, [])) ∧
      ((Verify lib self msg msglen signature signature_len sha_alg).1 = -1 ∧
        (Verify lib self msg msglen signature signature_len sha_alg).2.1 = self ∧
        ∀ c ∈ (Verify lib self msg msglen signature signature_len sha_alg).2.2,
          c.isVerify = false) ∧
      (msg ≠ none → signature ≠ none →
        Verify lib self msg msglen signature signature_len sha_alg = (-1, self, []))) ∧
    (sha_alg = "sha256".toList ∨ sha_alg = "sha1".toList →
      (self.evp_sign_key ≠ none → self.privatekey ≠ none →
        ∃ rest, (Sign lib self msg msglen sha_alg).2.2 =
          Call.EVP_MD_CTX_create ::
            Call.EVP_DigestSignInit
              (if sha_alg = "sha256".toList then EVP_MD.sha256 else EVP_MD.sha1)
              self.evp_sign_key :: rest) ∧
      (msg ≠ none → signature ≠ none →
        ∃ rest, (Verify lib self msg msglen signature signature_len sha_alg).2.2 =
          Call.EVP_MD_CTX_create ::
            Call.EVP_DigestVerifyInit
              (if sha_alg = "sha256".toList then EVP_MD.sha256 else EVP_MD.sha1)
              self.evp_verify_key :: rest)) := by
  constructor
  · intro h256 h1
    have hmd := select_md_none sha_alg h256 h1
    have hS : ∀ hk : ¬ (self.evp_sign_key = none ∨ self.privatekey = none),
        Sign lib self msg msglen sha_alg = (-1, self, []) := by
      intro hk
      rw [Sign, if_neg hk, hmd]
    have hV : ∀ hnull : ¬ (msg = none ∨ signature = none),
        Verify lib self msg msglen signature signature_len sha_alg = (-1, self, []) := by
      intro hnull
      rw [Verify, if_neg hnull, hmd]
    refine ⟨?_, fun hsign hpriv => hS (fun h => h.elim hsign hpriv), ?_,
      fun hmsg hsig => hV (fun h => h.elim hmsg hsig)⟩
    · by_cases hk : self.evp_sign_key = none ∨ self.privatekey = none
      · have h : Sign lib self msg msglen sha_alg =
            (-1, self, [Call.cerr "invalid sign key or private key is not loaded".toList]) := by
          rw [Sign, if_pos hk]
        rw [h]
        refine ⟨rfl, rfl, fun c hc => ?_⟩
        rw [List.mem_singleton.mp hc]
        rfl
      · rw [hS hk]
        exact ⟨rfl, rfl, fun c hc => absurd hc (List.not_mem_nil c)⟩
    · by_cases hnull : msg = none ∨ signature = none
      · have h : Verify lib self msg msglen signature signature_len sha_alg =
            (-1, self, [Call.cerr "invalid msg or signature".toList]) := by
          rw [Verify, if_pos hnull]
        rw [h]
        refine ⟨rfl, rfl, fun c hc => ?_⟩
        rw [List.mem_singleton.mp hc]
        rfl
      · rw [hV hnull]
        exact ⟨rfl, rfl, fun c hc => absurd hc (List.not_mem_nil c)⟩
  · intro h
    have hmd : select_md sha_alg =
        some (if sha_alg = "sha256".toList then EVP_MD.sha256 else EVP_MD.sha1) := by
      rcases h with h | h
      · rw [select_md, if_pos h, if_pos h]
      · subst h
        decide
    constructor
    · intro hsign hpriv
      exact Sign_reaches_init lib self msg msglen sha_alg _ hsign hpriv hmd
    · intro hmsg hsig
      exact Verify_reaches_init lib self msg signature msglen signature_len sha_alg _
        hmsg hsig hmd

/-- Witness of C6 with the digest name `md5`: `Verify` on an object that holds
a public key and no private key, and `Sign` with a null message on an object
that holds a private key. -/
theorem digest_selector_closed_witness :
    demo_verifier.evp_sign_key = none ∧ demo_verifier.evp_verify_key = some 8 ∧
      Verify demo_lib demo_verifier (some [1, 2]) 2 (some [1, 2]) 2 "md5".toList =
        (-1, demo_verifier, []) ∧
      Sign demo_lib demo_small none 0 "md5".toList = (-1, demo_small, []) ∧
      (Sign demo_lib demo_verifier (some [1, 2]) 2 "md5".toList).1 = -1 :=
  ⟨by decide, by decide,
    ((digest_selector_closed demo_lib demo_verifier (some [1, 2]) (some [1, 2]) 2 2
      "md5".toList).1 (by decide) (by decide)).2.2.2 (by decide) (by decide),
    ((digest_selector_closed demo_lib demo_small none none 0 0 "md5".toList).1
      (by decide) (by decide)).2.1 (by decide) (by decide),
    ((digest_selector_closed demo_lib demo_verifier (some [1, 2]) (some [1, 2]) 2 2
      "md5".toList).1 (by decide) (by decide)).1.1⟩

/-- C7, as stated, fails: with a public key loaded, a non-null message of
length 0 and a non-null signature of length 0 pass the check at the head of
`Verify`, and the init, update and final steps all run. -/
theorem Verify_empty_message_runs_steps :
    demo_small.evp_verify_key = some 2 ∧
      (Verify demo_lib demo_small (some []) 0 (some [9]) 1 "sha256".toList).2.2 =
        [Call.EVP_MD_CTX_create, Call.EVP_DigestVerifyInit EVP_MD.sha256 (some 2),
          Call.EVP_DigestVerifyUpdate (some []) 0, Call.EVP_DigestVerifyFinal (some [9]) 1,
          Call.ERR_print_errors_fp] ∧
      (Verify demo_lib demo_small (some [1, 2]) 2 (some []) 0 "sha256".toList).2.2 =
        [Call.EVP_MD_CTX_create, Call.EVP_DigestVerifyInit EVP_MD.sha256 (some 2),
          Call.EVP_DigestVerifyUpdate (some [1, 2]) 2, Call.EVP_DigestVerifyFinal (some []) 0,
          Call.ERR_print_errors_fp] := by
  decide

/-- C7, amended: when the message pointer or the signature pointer is null,
`Verify` returns `-1` at the check at its head: it writes one line to
`std::cerr`, makes no other call, so no step of the verify-init, update and
final sequence runs, and leaves the object as it was. -/
theorem Verify_null_argument_fails_first (lib : OpenSSL) (self : ECC)
    (msg signature : Option (List Nat)) (msglen signature_len : Nat) (sha_alg : List Char)
    (hnull : msg = none ∨ signature = none) :
    Verify lib self msg msglen signature signature_len sha_alg =
        (-1, self, [Call.cerr "invalid msg or signature".toList]) ∧
      ∀ c ∈ (Verify lib self msg msglen signature signature_len sha_alg).2.2,
        c.isVerify = false := by
  have h : Verify lib self msg msglen signature signature_len sha_alg =
      (-1, self, [Call.cerr "invalid msg or signature".toList]) := by
    rw [Verify, if_pos hnull]
  rw [h]
  refine ⟨rfl, ?_⟩
  intro c hc
  rw [List.mem_singleton.mp hc]
  rfl

/-- Witness of the amended C7 with a null message. -/
theorem Verify_null_argument_fails_first_witness :
    Verify demo_lib demo_small none 0 (some [9]) 1 "sha256".toList =
      (-1, demo_small, [Call.cerr "invalid msg or signature".toList]) :=
  (Verify_null_argument_fails_first demo_lib demo_small none (some [9]) 0 1 "sha256".toList
    (Or.inl rfl)).1

/-- C8: `ToNid` returns `NID_secp256k1` for `secp256k1`, `NID_brainpoolP256r1`
for `brainpool256r1`, and `-1`, which is neither of them, exactly for every
other name; and whenever `ToNid` returns `-1`, `GenerateKeys` returns `-1`
without any library call, so no key is generated and no file is opened, and
leaves the object as it was. -/
theorem ToNid_closed (lib : OpenSSL) (self : ECC) (pubkeyfile privkeyfile curve_name : List Char) :
    ToNid "secp256k1".toList = NID_secp256k1 ∧
      ToNid "brainpool256r1".toList = NID_brainpoolP256r1 ∧
      (ToNid curve_name = -1 ↔
        curve_name ≠ "secp256k1".toList ∧ curve_name ≠ "brainpool256r1".toList) ∧
      ToNid "nist-p256".toList = -1 ∧
      (ToNid curve_name = -1 →
        GenerateKeys lib self pubkeyfile privkeyfile curve_name = (-1, self, []) ∧
          ∀ c ∈ (GenerateKeys lib self pubkeyfile privkeyfile curve_name).2.2,
            c.isKeygenOrOpen = false) := by
  refine ⟨by decide, by decide, ?_, by decide, ?_⟩
  · constructor
    · intro h
      constructor
      · rintro rfl
        revert h
        decide
      · rintro rfl
        revert h
        decide
    · rintro ⟨h1, h2⟩
      rw [ToNid, if_neg h1, if_neg h2]
  · intro h
    have hg : GenerateKeys lib self pubkeyfile privkeyfile curve_name = (-1, self, []) := by
      rw [GenerateKeys]
      simp only [h, if_true]
    rw [hg]
    exact ⟨rfl, fun c hc => absurd hc (List.not_mem_nil c)⟩

/-- Witness of C8: `GenerateKeys` with the curve name `nist-p256`. -/
theorem ToNid_closed_witness :
    GenerateKeys demo_lib demo_small "pub.pem".toList "priv.pem".toList "nist-p256".toList =
      (-1, demo_small, []) :=
  ((ToNid_closed demo_lib demo_small "pub.pem".toList "priv.pem".toList
    "nist-p256".toList).2.2.2.2 (by decide)).1

theorem Sign_final_size (lib : OpenSSL) (self : ECC) (msg : Option (List Nat)) (msglen : Nat)
    (sha_alg : List Char) (md : EVP_MD)
    (hsign : self.evp_sign_key ≠ none) (hpriv : self.privatekey ≠ none)
    (hmd : select_md sha_alg = some md)
    (hinit : lib.EVP_DigestSignInit md self.evp_sign_key = 1)
    (hupd : lib.EVP_DigestSignUpdate md self.evp_sign_key msg msglen = 1) :
    ∃ last, (Sign lib self msg msglen sha_alg).2.2 =
      [Call.EVP_MD_CTX_create, Call.EVP_DigestSignInit md self.evp_sign_key,
        Call.EVP_DigestSignUpdate msg msglen, Call.EVP_DigestSignFinal self.signature_len,
        last] := by
  have hk : ¬ (self.evp_sign_key = none ∨ self.privatekey = none) := fun h => h.elim hsign hpriv
  rw [Sign, if_neg hk, hmd]
  simp only [hinit, hupd, ne_eq, not_true_eq_false, if_false]
  split <;> exact ⟨_, rfl⟩

/-- C10 fails on the code: whenever `Sign` reaches the final step, it hands
the current `signature_len`, not the capacity, to `EVP_DigestSignFinal` as
the available size. On a 72-byte buffer with the same loaded key, message and
digest, the fresh object passes 72 and `Sign` returns 0; after
`SetSignature("1:")` it passes 1, and after a first `Sign` that produced 70
bytes it passes 70, and in the toy library, which like OpenSSL refuses a
buffer smaller than the largest signature, `Sign` then returns `-1`. -/
theorem Sign_passes_previous_length :
    (∀ (lib : OpenSSL) (self : ECC) (msg : Option (List Nat)) (msglen : Nat)
        (sha_alg : List Char) (md : EVP_MD),
      self.evp_sign_key ≠ none → self.privatekey ≠ none → select_md sha_alg = some md →
      lib.EVP_DigestSignInit md self.evp_sign_key = 1 →
      lib.EVP_DigestSignUpdate md self.evp_sign_key msg msglen = 1 →
      ∃ last, (Sign lib self msg msglen sha_alg).2.2 =
        [Call.EVP_MD_CTX_create, Call.EVP_DigestSignInit md self.evp_sign_key,
          Call.EVP_DigestSignUpdate msg msglen, Call.EVP_DigestSignFinal self.signature_len,
          last]) ∧
      demo_loaded.signature.length = 72 ∧ demo_loaded.signature_len = 72 ∧
      SetSignature demo_loaded "1:".toList =
        some ⟨demo_after_set, [(0, 1)], none⟩ ∧
      demo_after_set.evp_sign_key = demo_loaded.evp_sign_key ∧
      demo_after_set.privatekey = demo_loaded.privatekey ∧
      demo_after_set.signature_len = 1 ∧
      demo_after_sign.signature_len = 70 ∧
      Sign demo_lib demo_loaded (some [104, 105]) 2 "sha256".toList =
        (0, demo_after_sign,
          [Call.EVP_MD_CTX_create, Call.EVP_DigestSignInit EVP_MD.sha256 (some 8),
            Call.EVP_DigestSignUpdate (some [104, 105]) 2, Call.EVP_DigestSignFinal 72,
            Call.EVP_MD_CTX_destroy]) ∧
      Sign demo_lib demo_after_set (some [104, 105]) 2 "sha256".toList =
        (-1, demo_after_set,
          [Call.EVP_MD_CTX_create, Call.EVP_DigestSignInit EVP_MD.sha256 (some 8),
            Call.EVP_DigestSignUpdate (some [104, 105]) 2, Call.EVP_DigestSignFinal 1,
            Call.ERR_print_errors_fp]) ∧
      Sign demo_lib demo_after_sign (some [104, 105]) 2 "sha256".toList =
        (-1, demo_after_sign,
          [Call.EVP_MD_CTX_create, Call.EVP_DigestSignInit EVP_MD.sha256 (some 8),
            Call.EVP_DigestSignUpdate (some [104, 105]) 2, Call.EVP_DigestSignFinal 70,
            Call.ERR_print_errors_fp]) := by
  refine ⟨?_, by decide⟩
  intro lib self msg msglen sha_alg md hsign hpriv hmd hinit hupd
  exact Sign_final_size lib self msg msglen sha_alg md hsign hpriv hmd hinit hupd

end ECC

end Crypto
